import Mathlib

/-!
# VoiceFlow ASR server — verification of the session/VAD/polish core

Shallow embedding of the message-handling core of the VoiceFlow server
(`src/server/main.py`, `src/server/text_polisher.py`, `src/server/llm_polisher.py`)
together with proofs about it.

Modelling conventions used throughout:

* Machine floats (float32/float64) are modelled as exact rationals (`ℚ`).
  No claim proved here depends on floating-point rounding; every numeric
  comparison in the embedded code gives the same verdict over `ℚ` as over
  the Python floats on the inputs used.
* Byte strings are `List Nat`, each element `< 256`.
* Python code that can raise an exception is embedded with `Except` /
  `Option`; an exception that the surrounding Python code does not catch
  surfaces as `.error` / `none`.
* `asyncio` interleaving is modelled where a claim needs it: the messages
  produced while handling one inbound message are collected into a list in
  emission order, and the process-wide `model_lock` discipline is modelled
  as an explicit labelled transition system.
-/

namespace VoiceFlow

/-! ## Audio buffer and inbound binary frames (`handle_client`, main.py 689-708)

The server keeps `audio_chunks : list[bytes]`; every appended chunk is a run
of little-endian float32 samples.  A chunk appended by the `0x02` branch is
produced by decoding the payload as little-endian int16 and dividing by
32767.0; we keep those decoded integers (the float32 encode/decode round
trip is the identity under the exact-rational convention).  The other two
branches append raw payload bytes unchanged.
-/

/-- Two's-complement value of a little-endian int16 given its two bytes
(`np.frombuffer(..., dtype=np.int16)` element semantics). -/
def int16OfBytes (lo hi : Nat) : Int :=
  let u := lo + 256 * hi
  if u < 32768 then (u : Int) else (u : Int) - 65536

/-- `np.frombuffer(data, dtype=np.int16)`: decodes consecutive little-endian
byte pairs; raises `ValueError` (here `none`) when the byte count is odd. -/
def decodeInt16LE : List Nat → Option (List Int)
  | [] => some []
  | [_] => none
  | lo :: hi :: rest => (decodeInt16LE rest).map (int16OfBytes lo hi :: ·)

/-- One chunk of the audio buffer (`audio_chunks` holds byte strings; see the
module comment for the two kinds of appended content). -/
inductive Chunk where
  /-- Raw float32 little-endian bytes appended unchanged
  (the `0x01` branch appends `message[1:]`, the legacy branch the whole message). -/
  | bytes (bs : List Nat)
  /-- Samples appended by the `0x02` branch: the decoded int16 values, each to
  be divided by 32767 (`np.frombuffer(..., np.int16).astype(np.float32) / 32767.0`). -/
  | scaled (vs : List Int)
  deriving DecidableEq

/-- IEEE-754 binary32 value of a 32-bit pattern, as an exact rational.
Exact for every finite float32; the non-finite patterns (exponent 255,
infinities and NaNs, which have no rational value) are mapped to 0. -/
def float32OfBits (bits : Nat) : ℚ :=
  let sign : ℚ := if bits / 2 ^ 31 % 2 = 1 then -1 else 1
  let expo : Nat := bits / 2 ^ 23 % 256
  let mant : Nat := bits % 2 ^ 23
  if expo = 0 then sign * ((mant : ℚ) / 2 ^ 23) * (1 / 2 ^ 126)
  else if expo = 255 then 0
  else sign * (1 + (mant : ℚ) / 2 ^ 23) * (2 : ℚ) ^ ((expo : ℤ) - 127)

/-- `np.frombuffer(raw, dtype=np.float32)` on a byte run: little-endian
4-byte groups.  (On the real buffer this is applied to the whole joined
buffer; a trailing group of fewer than 4 bytes cannot arise from the wire
format, whose float32 payloads are 4-byte aligned.) -/
def decodeFloat32LE : List Nat → List ℚ
  | b0 :: b1 :: b2 :: b3 :: rest =>
      float32OfBits (b0 + 256 * (b1 + 256 * (b2 + 256 * b3))) :: decodeFloat32LE rest
  | _ => []

/-- The float32 samples a buffer chunk contributes. -/
def Chunk.samples : Chunk → List ℚ
  | .bytes bs => decodeFloat32LE bs
  | .scaled vs => vs.map (fun v => (v : ℚ) / 32767)

/-- The binary-frame branch of `handle_client` (main.py 689-708).
`msg` is the inbound binary WebSocket frame.  Returns the new
`audio_chunks`; `.error` models the `ValueError` that `np.frombuffer`
raises on an odd int16 payload (uncaught inside the message loop, it
aborts the connection handler). -/
def handleBinaryFrame (recording : Bool) (chunks : List Chunk) (msg : List Nat) :
    Except Unit (List Chunk) :=
  if recording then
    match msg with
    | [] => .ok chunks            -- len(message) > 1 fails: ignored
    | [_] => .ok chunks           -- single byte: ignored
    | b :: rest =>                -- here len(message) ≥ 2; b = message[0]
      if b = 0x01 then .ok (chunks ++ [.bytes rest])
      else if b = 0x02 then
        match decodeInt16LE rest with
        | some vs => .ok (chunks ++ [.scaled vs])
        | none => .error ()
      else .ok (chunks ++ [.bytes msg])
  else .ok chunks

theorem decodeInt16LE_isSome_iff (bs : List Nat) :
    (decodeInt16LE bs).isSome ↔ bs.length % 2 = 0 := by
  induction bs using decodeInt16LE.induct with
  | case1 => simp [decodeInt16LE]
  | case2 b => simp [decodeInt16LE]
  | case3 lo hi rest ih =>
    simp only [decodeInt16LE, Option.isSome_map', List.length_cons] at ih ⊢
    rw [ih]; omega

theorem decodeInt16LE_length {bs : List Nat} {vs : List Int}
    (h : decodeInt16LE bs = some vs) : bs.length = 2 * vs.length := by
  induction bs using decodeInt16LE.induct generalizing vs with
  | case1 => simp [decodeInt16LE] at h; subst h; simp
  | case2 b => simp [decodeInt16LE] at h
  | case3 lo hi rest ih =>
    simp only [decodeInt16LE, Option.map_eq_some'] at h
    obtain ⟨ws, hws, rfl⟩ := h
    have hr := ih hws
    simp only [List.length_cons, hr]
    omega


/-- C5 (counterexample): the claim states that for a binary frame whose first
byte is `0x02`, the remaining bytes "are decoded as little-endian int16 and
scaled ... before appending".  The 2-byte frame `[0x02, 0x00]` is received
while recording and is longer than 1 byte, yet its 1-byte payload is not
decoded and appended: `np.frombuffer` raises `ValueError` (the buffer is not
appended to and the connection handler aborts). -/
theorem c5_counterexample :
    handleBinaryFrame true [] [0x02, 0x00] = Except.error () := rfl

/-- C5 (amended): handling of a binary frame received while recording.
A frame of length ≤ 1 is silently ignored; first byte `0x01` appends the
remaining bytes as little-endian float32 PCM; first byte `0x02` appends the
remaining bytes decoded as little-endian int16 scaled by 1/32767 — *provided
the payload byte count is even*, an odd payload raising a decode error with
nothing appended; any other first byte appends the entire payload, first
byte included, as float32 PCM. -/
theorem c5_frame_decoding (chunks : List Chunk) (msg : List Nat) :
    (msg.length ≤ 1 → handleBinaryFrame true chunks msg = .ok chunks) ∧
    (∀ b rest, msg = b :: rest → 2 ≤ msg.length →
      (b = 0x01 → handleBinaryFrame true chunks msg = .ok (chunks ++ [.bytes rest]) ∧
        (Chunk.bytes rest).samples = decodeFloat32LE rest) ∧
      (b = 0x02 → rest.length % 2 = 0 →
        ∃ vs, decodeInt16LE rest = some vs ∧
          handleBinaryFrame true chunks msg = .ok (chunks ++ [.scaled vs]) ∧
          (Chunk.scaled vs).samples = vs.map (fun v => (v : ℚ) / 32767)) ∧
      (b = 0x02 → rest.length % 2 = 1 →
        handleBinaryFrame true chunks msg = .error ()) ∧
      (b ≠ 0x01 → b ≠ 0x02 → handleBinaryFrame true chunks msg = .ok (chunks ++ [.bytes msg]))) := by
  constructor
  · intro hlen
    match msg, hlen with
    | [], _ => rfl
    | [_], _ => rfl
  · rintro b rest rfl hlen
    match rest, hlen with
    | r :: rs, _ =>
      refine ⟨?_, ?_, ?_, ?_⟩
      · rintro rfl
        exact ⟨rfl, rfl⟩
      · rintro rfl heven
        have hsome : (decodeInt16LE (r :: rs)).isSome :=
          (decodeInt16LE_isSome_iff (r :: rs)).mpr heven
        obtain ⟨vs, hvs⟩ := Option.isSome_iff_exists.mp hsome
        refine ⟨vs, hvs, ?_, rfl⟩
        simp [handleBinaryFrame, hvs]
      · rintro rfl hodd
        have hnone : decodeInt16LE (r :: rs) = none := by
          rcases h : decodeInt16LE (r :: rs) with _ | vs
          · rfl
          · have := (decodeInt16LE_isSome_iff (r :: rs)).mp (by simp [h])
            omega
        simp [handleBinaryFrame, hnone]
      · intro h1 h2
        simp [handleBinaryFrame, h1, h2]

/-- C5 (witness): concrete instances of `c5_frame_decoding` — a single-byte
frame is dropped; a `0x01` frame loses exactly its tag byte; a `0x02` frame
`[0x02, 0x00, 0x80]` appends the sample −32768/32767; a legacy frame keeps
its first byte. -/
theorem c5_frame_decoding_witness :
    handleBinaryFrame true [] [0x7f] = .ok [] ∧
    handleBinaryFrame true [] [0x01, 10, 20, 30, 40] = .ok [.bytes [10, 20, 30, 40]] ∧
    handleBinaryFrame true [] [0x02, 0x00, 0x80] = .ok [.scaled [-32768]] ∧
    (Chunk.scaled [-32768]).samples = [-(32768 : ℚ) / 32767] ∧
    handleBinaryFrame true [] [0x07, 1, 2, 3] = .ok [.bytes [0x07, 1, 2, 3]] := by
  refine ⟨(c5_frame_decoding [] [0x7f]).1 (by decide), ?_, ?_, ?_, ?_⟩
  · exact (((c5_frame_decoding [] [0x01, 10, 20, 30, 40]).2 0x01 [10, 20, 30, 40] rfl
      (by decide)).1 rfl).1
  · obtain ⟨vs, hvs, hok, _⟩ := (((c5_frame_decoding [] [0x02, 0x00, 0x80]).2 0x02 [0x00, 0x80]
      rfl (by decide)).2.1 rfl (by decide))
    have : vs = [-32768] := by
      have : some vs = some [(-32768 : Int)] := by rw [← hvs]; decide
      simpa using this
    rwa [this] at hok
  · norm_num [Chunk.samples]
  · exact ((((c5_frame_decoding [] [0x07, 1, 2, 3]).2 0x07 [1, 2, 3] rfl
      (by decide)).2.2.2) (by decide) (by decide))

/-! ## Pause-aware punctuation (`TimestampAwarePunctuator`, text_polisher.py 11-112)

Word timestamps are Python floats; they are modelled as exact rationals.
A word dict `{"word": w, "start": s, "end": e}` becomes an `AlignedWord`
(the `.get` defaults never fire on the word lists the aligner produces). -/

/-- One word-level timestamp entry (`{"word", "start", "end"}`). -/
structure AlignedWord where
  word : String
  startT : ℚ
  endT : ℚ
  deriving DecidableEq

/-- `TimestampAwarePunctuator._is_chinese`: any character in `[一, 鿿]`. -/
def isChinese (text : String) : Bool :=
  text.toList.any (fun c => '一' ≤ c ∧ c ≤ '鿿')

/-- `LONG_PAUSE_THRESHOLD = 1.5` (seconds). -/
def LONG_PAUSE_THRESHOLD : ℚ := 1.5

/-- `MID_PAUSE_THRESHOLD = 0.8` (seconds). -/
def MID_PAUSE_THRESHOLD : ℚ := 0.8

/-- `SHORT_PAUSE_THRESHOLD = 0.3` (seconds). -/
def SHORT_PAUSE_THRESHOLD : ℚ := 0.3

/-- The separator parts appended after a (non-final, non-empty) word,
from the gap to the next word (text_polisher.py 56-85): `[]` when nothing
is appended, otherwise the single appended part. -/
def gapSep (w next : AlignedWord) : List String :=
  if LONG_PAUSE_THRESHOLD < next.startT - w.endT then
    if isChinese w.word then ["。\n"] else [". "]
  else if MID_PAUSE_THRESHOLD < next.startT - w.endT then
    if isChinese w.word then ["，"] else [", "]
  else if SHORT_PAUSE_THRESHOLD < next.startT - w.endT then
    if isChinese w.word then ["、"] else [" "]
  else
    if ¬ isChinese w.word ∧ ¬ isChinese next.word then [" "] else []

/-- The `result_parts` list built by the main loop of `punctuate`
(text_polisher.py 46-85): each non-empty word contributes itself and, when a
next word exists, its separator; an empty word is skipped entirely
(`continue` fires before both appends). -/
def punctuateParts : List AlignedWord → List String
  | [] => []
  | [w] => if w.word = "" then [] else [w.word]
  | w :: next :: rest =>
      (if w.word = "" then [] else w.word :: gapSep w next) ++ punctuateParts (next :: rest)

/-- The six sentence-ending marks tested by
`result_parts[-1].rstrip().endswith(("。", ".", "!", "?", "！", "？"))`. -/
def sentenceEndMarks : List Char := ['。', '.', '!', '?', '！', '？']

/-- `s.rstrip().endswith(("。", ".", "!", "?", "！", "？"))` — all six
suffixes are single characters, so this is a last-character test after
stripping trailing whitespace (the whitespace that can occur here is
`' '` and `'\n'`, on which Python's `rstrip` and `Char.isWhitespace`
agree). -/
def endsWithMark (s : String) : Bool :=
  match s.toList.reverse.dropWhile Char.isWhitespace with
  | c :: _ => sentenceEndMarks.contains c
  | [] => false

/-- `"".join(parts)` (string concatenation of the parts, in order). -/
def concatParts : List String → String
  | [] => ""
  | s :: rest => s ++ concatParts rest

/-- `TimestampAwarePunctuator.punctuate` (text_polisher.py 29-98): build the
parts list, then append a terminal mark — chosen by the script of the last
word — when the last part does not already end with a sentence-ending mark. -/
def punctuate (words : List AlignedWord) : String :=
  if words.isEmpty then "" else
  let parts := punctuateParts words
  let lastWord := ((words.getLast?).map AlignedWord.word).getD ""
  let parts' :=
    if parts ≠ [] ∧ ¬ endsWithMark ((parts.getLast?).getD "") then
      parts ++ [if isChinese lastWord then "。" else "."]
    else parts
  concatParts parts'

/-! Spec-level restatement of the pause rules (from the spec's words, for the
refinement proof of C8): between consecutive words a gap > 1.5 s inserts a
sentence break, > 0.8 s a comma, > 0.3 s a minor break, with the marker
chosen per-word by script; otherwise CJK-adjacent words concatenate directly
and non-CJK-adjacent words get a single space; a terminal sentence mark
matching the last word's script is appended when missing. -/

/-- Separator the spec prescribes for a gap, given the scripts of the
current and next word. -/
def specSeparator (gap : ℚ) (curCJK nextCJK : Bool) : String :=
  if 1.5 < gap then (if curCJK then "。\n" else ". ")
  else if 0.8 < gap then (if curCJK then "，" else ", ")
  else if 0.3 < gap then (if curCJK then "、" else " ")
  else if curCJK ∨ nextCJK then "" else " "

/-- Words joined with the spec separators. -/
def specRender : List AlignedWord → String
  | [] => ""
  | [w] => w.word
  | w :: next :: rest =>
      w.word ++ specSeparator (next.startT - w.endT) (isChinese w.word) (isChinese next.word)
        ++ specRender (next :: rest)

/-- Spec-level punctuation: render, then append the terminal mark of the
last word's script when the last word does not already end with one. -/
def specPunctuate (words : List AlignedWord) : String :=
  if words.isEmpty then "" else
  let lastWord := ((words.getLast?).map AlignedWord.word).getD ""
  let r := specRender words
  if endsWithMark lastWord then r
  else r ++ (if isChinese lastWord then "。" else ".")

theorem string_append_empty (s : String) : s ++ "" = s := by
  apply congrArg String.mk
  exact List.append_nil s.data

theorem concatParts_append (l₁ l₂ : List String) :
    concatParts (l₁ ++ l₂) = concatParts l₁ ++ concatParts l₂ := by
  induction l₁ with
  | nil =>
    show concatParts l₂ = "" ++ concatParts l₂
    rw [String.empty_append]
  | cons s rest ih =>
    show s ++ concatParts (rest ++ l₂) = (s ++ concatParts rest) ++ concatParts l₂
    rw [ih, String.append_assoc]

theorem concatParts_singleton (s : String) : concatParts [s] = s :=
  string_append_empty s

theorem concatParts_gapSep (w next : AlignedWord) :
    concatParts (gapSep w next) =
      specSeparator (next.startT - w.endT) (isChinese w.word) (isChinese next.word) := by
  unfold gapSep specSeparator
  unfold LONG_PAUSE_THRESHOLD MID_PAUSE_THRESHOLD SHORT_PAUSE_THRESHOLD
  split_ifs <;>
    first
      | exact concatParts_singleton _
      | rfl
      | tauto

theorem punctuateParts_ne_nil {words : List AlignedWord}
    (hne : words ≠ []) (hw : ∀ w ∈ words, w.word ≠ "") :
    punctuateParts words ≠ [] := by
  induction words with
  | nil => exact absurd rfl hne
  | cons w rest ih =>
    match rest with
    | [] =>
      have : w.word ≠ "" := hw w (by simp)
      simp [punctuateParts, this]
    | next :: rs =>
      have hr := ih (by simp) (fun x hx => hw x (by simp [hx]))
      have : w.word ≠ "" := hw w (by simp)
      simp only [punctuateParts, this, if_neg]
      intro hcontra
      exact hr (List.append_eq_nil.mp hcontra).2

theorem punctuateParts_getLast {words : List AlignedWord}
    (hne : words ≠ []) (hw : ∀ w ∈ words, w.word ≠ "") :
    (punctuateParts words).getLast? = (words.getLast?).map AlignedWord.word := by
  induction words with
  | nil => exact absurd rfl hne
  | cons w rest ih =>
    match rest with
    | [] =>
      have : w.word ≠ "" := hw w (by simp)
      simp [punctuateParts, this]
    | next :: rs =>
      have hr := ih (by simp) (fun x hx => hw x (by simp [hx]))
      have hrne : punctuateParts (next :: rs) ≠ [] :=
        punctuateParts_ne_nil (by simp) (fun x hx => hw x (by simp [hx]))
      have : w.word ≠ "" := hw w (by simp)
      simp only [punctuateParts, this, if_neg]
      rw [List.getLast?_append_of_ne_nil _ hrne, hr]
      simp

theorem concatParts_punctuateParts {words : List AlignedWord}
    (hw : ∀ w ∈ words, w.word ≠ "") :
    concatParts (punctuateParts words) = specRender words := by
  induction words with
  | nil => rfl
  | cons w rest ih =>
    match rest with
    | [] =>
      have : w.word ≠ "" := hw w (by simp)
      simp [punctuateParts, specRender, this, concatParts, string_append_empty]
    | next :: rs =>
      have hweq := ih (fun x hx => hw x (by simp [hx]))
      have hwne : w.word ≠ "" := hw w (by simp)
      simp only [punctuateParts, hwne, if_neg, specRender]
      rw [concatParts_append]
      show (w.word ++ concatParts (gapSep w next)) ++ concatParts (punctuateParts (next :: rs)) = _
      rw [hweq, concatParts_gapSep, String.append_assoc]

theorem punctuate_eq_specPunctuate (words : List AlignedWord)
    (hw : ∀ w ∈ words, w.word ≠ "") :
    punctuate words = specPunctuate words := by
  rcases words with _ | ⟨w, rest⟩
  · rfl
  · have hne : w :: rest ≠ [] := by simp
    have hl := punctuateParts_getLast hne hw
    have hc := concatParts_punctuateParts hw
    have hpn := punctuateParts_ne_nil hne hw
    obtain ⟨lw, hlw⟩ := Option.isSome_iff_exists.mp (List.getLast?_isSome.mpr hne)
    rw [hlw] at hl
    simp only [Option.map_some'] at hl
    unfold punctuate specPunctuate
    simp only [List.isEmpty_cons, hlw, hl, Option.map_some', Option.getD_some, hpn, ne_eq,
      not_false_eq_true, true_and]
    by_cases he : endsWithMark lw.word
    · simp only [he, not_true_eq_false, if_false, if_true, hc]
    · simp [he, concatParts_append, hc, concatParts_singleton]

/-- C8: the pause-aware punctuator follows the spec's gap rules — gap > 1.5 s
inserts a sentence break, gap > 0.8 s a comma, gap > 0.3 s a minor break
(marker chosen per-word by Unicode CJK range), otherwise CJK-adjacent words
concatenate directly and non-CJK-adjacent words are joined by a single
space, with a terminal sentence mark matching the last word's script
appended when missing (`specPunctuate` is the spec-level restatement) — and
on `[("今天",0.0,0.5),("天气",2.2,2.6)]` it produces a sentence break
between the two words. -/
theorem c8_pause_punctuation :
    (∀ words, (∀ w ∈ words, w.word ≠ "") → punctuate words = specPunctuate words) ∧
    punctuate [⟨"今天", 0, 0.5⟩, ⟨"天气", 2.2, 2.6⟩] = "今天。\n天气。" := by
  refine ⟨punctuate_eq_specPunctuate, ?_⟩
  have h1 : gapSep ⟨"今天", 0, 0.5⟩ ⟨"天气", 2.2, 2.6⟩ = ["。\n"] := by
    unfold gapSep
    norm_num [LONG_PAUSE_THRESHOLD]
    decide
  simp only [punctuate, punctuateParts, h1]
  decide

/-- C8 (witness): `c8_pause_punctuation` applied to a concrete two-word
English input with every word non-empty. -/
theorem c8_pause_punctuation_witness :
    punctuate [⟨"hello", 0, 0.5⟩, ⟨"world", 1, 1.4⟩] =
      specPunctuate [⟨"hello", 0, 0.5⟩, ⟨"world", 1, 1.4⟩] :=
  c8_pause_punctuation.1 _ (by decide)

/-! ## Outbound messages

The JSON messages `handle_client` and the VAD task send on the WebSocket
(main.py 309, 557, 601, 643, 665, 682).  `final` carries `original_text`
only when the dict literal includes that key (`none` = key absent). -/

/-- An outbound message relevant to the recording pipeline. -/
inductive Msg where
  /-- `{"type": "partial", "text": ...}` (main.py 309-312). -/
  | interim (text : String)
  /-- `{"type": "final", "text": ..., ("original_text": ...,) "polish_method": ...}`. -/
  | final (text : String) (originalText : Option String) (polishMethod : String)
  /-- `{"type": "polish_update", "text": ...}` (main.py 665-668). -/
  | polishUpdate (text : String)
  deriving DecidableEq

/-- The wire value of the message's `"type"` field. -/
def Msg.typeField : Msg → String
  | .interim _ => "partial"
  | .final _ _ _ => "final"
  | .polishUpdate _ => "polish_update"

/-- Is this a `final` message? -/
def isFinalMsg : Msg → Bool
  | .final _ _ _ => true
  | _ => false

/-- Is this a `polish_update` message? -/
def isUpdateMsg : Msg → Bool
  | .polishUpdate _ => true
  | _ => false

/-! ## VAD streaming transcription (`vad_streaming_transcribe`, main.py 260-351)

One loop iteration (`check_interval_ms` tick) reads the current buffer
snapshot, updates the consecutive-silence counter, and possibly triggers
`do_transcribe`.  The snapshot (a decoded float32 sample array) and the
model-call outcome are the tick's inputs.  `is_transcribing` is set before
and cleared (in `finally`) after the awaited call, so across a whole tick
its net change is none; it is carried in the state because the trigger
logic consults it. -/

/-- `calculate_rms(samples) ** 2` — the mean square.  The source computes
`sqrt(mean(samples ** 2))` and compares it with `threshold`; both sides are
nonnegative, so squaring both gives the same verdict, and the square avoids
the irrational `sqrt`. -/
def calculateRmsSq (samples : List ℚ) : ℚ :=
  if samples.isEmpty then 0
  else (samples.map (fun s => s ^ 2)).sum / samples.length

/-- `is_silence(samples, threshold)`: `calculate_rms(samples) < threshold`,
stated on squares (equivalent for nonnegative threshold). -/
def isSilence (samples : List ℚ) (threshold : ℚ) : Bool :=
  calculateRmsSq samples < threshold ^ 2

/-- Default `silence_threshold` (0.01). -/
def defaultSilenceThreshold : ℚ := 0.01

/-- Default `silence_duration_ms` (300). -/
def defaultSilenceDurationMs : Nat := 300

/-- Default `check_interval_ms` (100). -/
def defaultCheckIntervalMs : Nat := 100

/-- `frames_needed = silence_duration_ms // check_interval_ms`. -/
def framesNeededOf (silenceDurationMs checkIntervalMs : Nat) : Nat :=
  silenceDurationMs / checkIntervalMs

/-- `samples[-1600:]` — the most recent 100 ms window. -/
def lastWindow (samples : List ℚ) : List ℚ :=
  samples.drop (samples.length - 1600)

/-- The mutable locals of the VAD loop. -/
structure VadState where
  /-- `silence_frames`: count of consecutive silent 100 ms windows. -/
  silenceFrames : Nat
  /-- `last_transcribed_length`: snapshot length at the last emission
  (the spec's `lastTriggeredLength`). -/
  lastTranscribedLength : Nat
  /-- `last_text`: text of the last emitted partial (`lastEmittedText`). -/
  lastText : String
  /-- `is_transcribing`: a transcription by this scheduler is in flight. -/
  isTranscribing : Bool
  deriving DecidableEq

/-- Initial VAD-loop state (main.py 281-285). -/
def VadState.init : VadState :=
  { silenceFrames := 0, lastTranscribedLength := 0, lastText := "", isTranscribing := false }

/-- Outcome of the guarded `model.transcribe` call inside `do_transcribe`:
either the extracted text, or an exception (caught at main.py 315-316). -/
inductive VadOutcome where
  | failure
  | ok (text : String)
  deriving DecidableEq

/-- `do_transcribe` (main.py 289-318): skip when already transcribing;
otherwise call the model (under `model_lock`) and, when the text is
non-empty and changed, update the state and emit one `partial`.  Returns
(new state, messages emitted, whether the model was called). -/
def doTranscribe (st : VadState) (samplesLen : Nat) (outcome : VadOutcome) :
    VadState × List Msg × Bool :=
  if st.isTranscribing then (st, [], false)
  else
    match outcome with
    | .failure => (st, [], true)
    | .ok text =>
        if text ≠ "" ∧ text ≠ st.lastText then
          ({ st with lastText := text, lastTranscribedLength := samplesLen },
            [Msg.interim text], true)
        else (st, [], true)

/-- The consecutive-silence count after examining this tick's last 100 ms
window (main.py 337-340). -/
def nextSilenceFrames (threshold : ℚ) (st : VadState) (samples : List ℚ) : Nat :=
  if isSilence (lastWindow samples) threshold then st.silenceFrames + 1 else 0

/-- The unconditional `silence_frames = 0` right after an `await
do_transcribe(...)` on the trigger path (main.py 345-347). -/
def afterTrigger (r : VadState × List Msg × Bool) : VadState × List Msg × Bool :=
  ({ r.1 with silenceFrames := 0 }, r.2.1, r.2.2)

/-- One iteration of the VAD loop body (main.py 321-347) on the current
snapshot.  A snapshot shorter than 1600 samples (including the empty
`audio_chunks` case) leaves everything untouched. -/
def vadTick (threshold : ℚ) (framesNeeded : Nat) (st : VadState) (samples : List ℚ)
    (outcome : VadOutcome) : VadState × List Msg × Bool :=
  if samples.length < 1600 then (st, [], false)
  else if framesNeeded ≤ nextSilenceFrames threshold st samples ∧
      st.lastTranscribedLength < samples.length then
    afterTrigger (doTranscribe { st with silenceFrames := nextSilenceFrames threshold st samples }
      samples.length outcome)
  else ({ st with silenceFrames := nextSilenceFrames threshold st samples }, [], false)

/-- The VAD loop over a sequence of ticks, collecting every emitted message. -/
def vadRun (threshold : ℚ) (framesNeeded : Nat) :
    VadState → List (List ℚ × VadOutcome) → List Msg
  | _, [] => []
  | st, (samples, outcome) :: rest =>
      let r := vadTick threshold framesNeeded st samples outcome
      r.2.1 ++ vadRun threshold framesNeeded r.1 rest

/-- The texts of the `partial` messages, in emission order. -/
def interimTexts : List Msg → List String
  | [] => []
  | .interim t :: r => t :: interimTexts r
  | _ :: r => interimTexts r

theorem doTranscribe_inflight {st : VadState} (len : Nat) (o : VadOutcome)
    (h : st.isTranscribing = true) : doTranscribe st len o = (st, [], false) := by
  unfold doTranscribe
  rw [if_pos h]

theorem doTranscribe_failure {st : VadState} (len : Nat)
    (h : st.isTranscribing = false) : doTranscribe st len .failure = (st, [], true) := by
  unfold doTranscribe
  rw [if_neg (by simp [h])]

theorem doTranscribe_ok_emit {st : VadState} (len : Nat) {text : String}
    (h : st.isTranscribing = false) (hc : text ≠ "" ∧ text ≠ st.lastText) :
    doTranscribe st len (.ok text) =
      ({ st with lastText := text, lastTranscribedLength := len },
        [Msg.interim text], true) := by
  unfold doTranscribe
  rw [if_neg (by simp [h])]
  exact if_pos hc

theorem doTranscribe_ok_skip {st : VadState} (len : Nat) {text : String}
    (h : st.isTranscribing = false) (hc : ¬(text ≠ "" ∧ text ≠ st.lastText)) :
    doTranscribe st len (.ok text) = (st, [], true) := by
  unfold doTranscribe
  rw [if_neg (by simp [h])]
  exact if_neg hc

theorem calculateRmsSq_replicate_zero (n : Nat) :
    calculateRmsSq (List.replicate n (0 : ℚ)) = 0 := by
  unfold calculateRmsSq
  rcases n with _ | m
  · simp
  · rw [if_neg (by simp)]
    simp

theorem isSilence_replicate_zero :
    isSilence (List.replicate 1600 (0 : ℚ)) defaultSilenceThreshold = true := by
  unfold isSilence
  rw [calculateRmsSq_replicate_zero]
  norm_num [defaultSilenceThreshold]

theorem vadstate_update_isTranscribing (st : VadState) (n : Nat) :
    ({ st with silenceFrames := n } : VadState).isTranscribing = st.isTranscribing := rfl

theorem vadstate_update_lastText (st : VadState) (n : Nat) :
    ({ st with silenceFrames := n } : VadState).lastText = st.lastText := rfl

/-- C6: in a VAD-loop iteration the model is called exactly when the
consecutive-silence count has reached `framesNeeded`
(`silence_duration_ms // check_interval_ms`, default `300 // 100 = 3`),
the snapshot is strictly longer than `last_transcribed_length`, and no
transcription by this scheduler is in flight (snapshots shorter than 1600
samples never trigger); and on every trigger the silence counter is reset
to 0. -/
theorem c6_vad_trigger (threshold : ℚ) (framesNeeded : Nat) (st : VadState)
    (samples : List ℚ) (outcome : VadOutcome) :
    ((vadTick threshold framesNeeded st samples outcome).2.2 = true ↔
      (1600 ≤ samples.length ∧ framesNeeded ≤ nextSilenceFrames threshold st samples ∧
        st.lastTranscribedLength < samples.length ∧ st.isTranscribing = false)) ∧
    (1600 ≤ samples.length → framesNeeded ≤ nextSilenceFrames threshold st samples →
      st.lastTranscribedLength < samples.length →
      (vadTick threshold framesNeeded st samples outcome).1.silenceFrames = 0) ∧
    framesNeededOf defaultSilenceDurationMs defaultCheckIntervalMs = 3 := by
  refine ⟨?_, ?_, by decide⟩
  · unfold vadTick
    by_cases h1 : samples.length < 1600
    · rw [if_pos h1]
      exact iff_of_false Bool.false_ne_true (by rintro ⟨hle, -⟩; omega)
    · rw [if_neg h1]
      by_cases h2 : framesNeeded ≤ nextSilenceFrames threshold st samples ∧
          st.lastTranscribedLength < samples.length
      · rw [if_pos h2]
        have hle : 1600 ≤ samples.length := by omega
        unfold doTranscribe afterTrigger
        rw [vadstate_update_isTranscribing]
        rcases hx : st.isTranscribing
        · rw [if_neg Bool.false_ne_true]
          rcases outcome with _ | text
          · exact iff_of_true rfl ⟨hle, h2.1, h2.2, rfl⟩
          · dsimp only
            by_cases hc : text ≠ "" ∧ text ≠ st.lastText
            · rw [if_pos hc]
              exact iff_of_true rfl ⟨hle, h2.1, h2.2, rfl⟩
            · rw [if_neg hc]
              exact iff_of_true rfl ⟨hle, h2.1, h2.2, rfl⟩
        · rw [if_pos rfl]
          exact iff_of_false Bool.false_ne_true
            (by rintro ⟨-, -, -, hts⟩; exact Bool.noConfusion hts)
      · rw [if_neg h2]
        exact iff_of_false Bool.false_ne_true (by rintro ⟨-, hb, hc, -⟩; exact h2 ⟨hb, hc⟩)
  · intro h1 h2 h3
    unfold vadTick
    rw [if_neg (by omega), if_pos ⟨h2, h3⟩]
    rfl

/-- C6 (witness): `c6_vad_trigger` applied to a concrete silent tick — 1600
zero samples, threshold 0.01, two prior silent frames (so the count reaches
the default 3), new audio since the last emission, no call in flight — the
model is called. -/
theorem c6_vad_trigger_witness :
    (vadTick defaultSilenceThreshold 3
      { silenceFrames := 2, lastTranscribedLength := 0, lastText := "", isTranscribing := false }
      (List.replicate 1600 (0 : ℚ)) (.ok "你好")).2.2 = true := by
  apply (c6_vad_trigger defaultSilenceThreshold 3 _ _ _).1.mpr
  refine ⟨by rw [List.length_replicate], ?_, by rw [List.length_replicate]; decide, rfl⟩
  unfold nextSilenceFrames lastWindow
  rw [List.length_replicate]
  norm_num [isSilence_replicate_zero]

theorem interimTexts_append (l₁ l₂ : List Msg) :
    interimTexts (l₁ ++ l₂) = interimTexts l₁ ++ interimTexts l₂ := by
  induction l₁ with
  | nil => rfl
  | cons m rest ih => rcases m <;> simp [interimTexts, ih]

/-- Per-tick emission shape: a tick either emits nothing and keeps
`last_text`, or emits exactly one `partial` whose text is non-empty and
differs from `last_text`, updating `last_text` (and the snapshot length). -/
theorem vadTick_emits (threshold : ℚ) (framesNeeded : Nat) (st : VadState)
    (samples : List ℚ) (outcome : VadOutcome) :
    ((vadTick threshold framesNeeded st samples outcome).2.1 = [] ∧
      (vadTick threshold framesNeeded st samples outcome).1.lastText = st.lastText) ∨
    (∃ t, (vadTick threshold framesNeeded st samples outcome).2.1 = [Msg.interim t] ∧
      t ≠ "" ∧ t ≠ st.lastText ∧
      (vadTick threshold framesNeeded st samples outcome).1.lastText = t ∧
      (vadTick threshold framesNeeded st samples outcome).1.lastTranscribedLength =
        samples.length) := by
  unfold vadTick
  by_cases h1 : samples.length < 1600
  · rw [if_pos h1]
    exact Or.inl ⟨rfl, rfl⟩
  · rw [if_neg h1]
    by_cases h2 : framesNeeded ≤ nextSilenceFrames threshold st samples ∧
        st.lastTranscribedLength < samples.length
    · rw [if_pos h2]
      unfold doTranscribe afterTrigger
      rw [vadstate_update_isTranscribing]
      rcases hx : st.isTranscribing
      · rw [if_neg Bool.false_ne_true]
        rcases outcome with _ | text
        · exact Or.inl ⟨rfl, rfl⟩
        · dsimp only
          by_cases hc : text ≠ "" ∧ text ≠ st.lastText
          · rw [if_pos hc]
            exact Or.inr ⟨text, rfl, hc.1, hc.2, rfl, rfl⟩
          · rw [if_neg hc]
            exact Or.inl ⟨rfl, rfl⟩
      · rw [if_pos rfl]
        exact Or.inl ⟨rfl, rfl⟩
    · rw [if_neg h2]
      exact Or.inl ⟨rfl, rfl⟩

theorem vadRun_invariant (threshold : ℚ) (framesNeeded : Nat)
    (ticks : List (List ℚ × VadOutcome)) :
    ∀ st : VadState,
      (∀ t ∈ interimTexts (vadRun threshold framesNeeded st ticks), t ≠ "") ∧
      List.Chain' (· ≠ ·)
        (st.lastText :: interimTexts (vadRun threshold framesNeeded st ticks)) := by
  induction ticks with
  | nil =>
    intro st
    exact ⟨fun t ht => absurd ht (List.not_mem_nil t), List.chain'_singleton _⟩
  | cons tick rest ih =>
    intro st
    obtain ⟨samples, outcome⟩ := tick
    have h := vadTick_emits threshold framesNeeded st samples outcome
    have ihr := ih (vadTick threshold framesNeeded st samples outcome).1
    simp only [vadRun, interimTexts_append]
    rcases h with ⟨hnil, hlast⟩ | ⟨t, hmsgs, hne, hdiff, hlast, _⟩
    · rw [hnil]
      rw [hlast] at ihr
      simpa [interimTexts] using ihr
    · rw [hmsgs] at *
      rw [hlast] at ihr
      constructor
      · intro x hx
        rcases List.mem_append.mp hx with hx | hx
        · simp only [interimTexts, List.mem_singleton] at hx
          exact hx ▸ hne
        · exact ihr.1 x hx
      · show List.Chain' (· ≠ ·) (st.lastText :: t :: _)
        rw [List.chain'_cons]
        exact ⟨Ne.symm hdiff, ihr.2⟩

/-- C7: `do_transcribe` emits a `partial` only for a non-empty text that
differs from `last_text`, and only then updates `last_text` and
`last_transcribed_length`; consequently, over any run of the VAD loop from
its initial state, no emitted `partial` carries empty text and no two
consecutive `partial`s carry the same text. -/
theorem c7_partial_emission (threshold : ℚ) (framesNeeded : Nat)
    (ticks : List (List ℚ × VadOutcome)) :
    (∀ st len text, st.isTranscribing = false →
      ((text ≠ "" ∧ text ≠ st.lastText) →
        doTranscribe st len (.ok text) =
          ({ st with lastText := text, lastTranscribedLength := len },
            [Msg.interim text], true)) ∧
      (¬(text ≠ "" ∧ text ≠ st.lastText) →
        doTranscribe st len (.ok text) = (st, [], true))) ∧
    (∀ t ∈ interimTexts (vadRun threshold framesNeeded VadState.init ticks), t ≠ "") ∧
    List.Chain' (· ≠ ·) (interimTexts (vadRun threshold framesNeeded VadState.init ticks)) := by
  refine ⟨?_, (vadRun_invariant threshold framesNeeded ticks VadState.init).1, ?_⟩
  · intro st len text hst
    constructor
    · intro hcond
      unfold doTranscribe
      rw [if_neg (by rw [hst]; exact Bool.false_ne_true)]
      dsimp only
      rw [if_pos hcond]
    · intro hcond
      unfold doTranscribe
      rw [if_neg (by rw [hst]; exact Bool.false_ne_true)]
      dsimp only
      rw [if_neg hcond]
  · exact (vadRun_invariant threshold framesNeeded ticks VadState.init).2.tail

/-- C7 (witness): `c7_partial_emission` applied at concrete inputs — with no
call in flight, the text "你好" (non-empty, different from the last text)
is emitted as a single `partial` and the state is updated. -/
theorem c7_partial_emission_witness :
    doTranscribe VadState.init 1600 (.ok "你好") =
      ({ VadState.init with lastText := "你好", lastTranscribedLength := 1600 },
        [Msg.interim "你好"], true) :=
  ((c7_partial_emission 0 3 []).1 VadState.init 1600 "你好" rfl).1 (by decide)

/-! ## Stop handling and the two-step polish pipeline
(`handle_client`, main.py 543-687; `LLMPolisher.polish_async`,
llm_polisher.py 305-341)

Handling one `stop` message produces a list of outbound messages in
emission order: the `final` (always sent by an awaited `send` before the
background LLM task is even created) followed, at most, by the one
`polish_update` the background task may send.  Calls into collaborating
components that the claims do not constrain (`scene_polisher.polish`,
`run_plugins`, `TextPolisher.polish`, the LLM round trip) are environment
parameters of the model. -/

/-- Environment of one `stop` handling. -/
structure StopEnv where
  /-- `enable_polish` (set at `start`, main.py 511). -/
  enablePolish : Bool
  /-- `use_llm_polish` (main.py 512). -/
  useLlmPolish : Bool
  /-- `get_llm_polisher()` is not `None` (main.py 652-654). -/
  llmPolisherPresent : Bool
  /-- `LLMPolisher.llm_client` is not `None` (llm_polisher.py 328). -/
  llmClientPresent : Bool
  /-- Result of `await self.llm_client.polish_text(text, prompt)`:
  `some s` on success, `none` when it raises (llm_polisher.py 330-337). -/
  llmResult : Option String
  /-- `scene_polisher.polish(·, session_scene)` (main.py 640). -/
  scenePolish : String → String
  /-- `run_plugins` (main.py 121-129, 641, 664, 681). -/
  runPlugins : String → String
  /-- `self.base_polisher.polish` (llm_polisher.py 340). -/
  rulesPolish : String → String

/-- Python truthiness of a string (`if not text or not text.strip()`
combines emptiness and whitespace-only). -/
def blankText (text : String) : Bool :=
  text = "" ∨ text.trim = ""

/-- `LLMPolisher.polish_async` (llm_polisher.py 305-341) with `use_llm`
passed explicitly: returns `(polished_text, polish_method)`.  Methods:
`"none"` for blank input, `"llm"` when the LLM call succeeds with a
non-blank stripped result, `"rules"` otherwise (LLM disabled, no client,
exception, or blank LLM output). -/
def polishAsync (text : String) (useLlm : Bool) (env : StopEnv) : String × String :=
  if blankText text then (text, "none")
  else if useLlm ∧ env.llmClientPresent then
    match env.llmResult with
    | some polished =>
        if polished.trim ≠ "" then (polished.trim, "llm")
        else (env.rulesPolish text, "rules")
    | none => (env.rulesPolish text, "rules")
  else (env.rulesPolish text, "rules")

/-- Outcome of the guarded final transcription at `stop` (main.py 570-607):
timeout (`asyncio.TimeoutError`), a plain-mode result text, or a
timestamps-mode result (`{"text", "words"}` dict). -/
inductive AsrOutcome where
  | timeout
  | plain (text : String)
  | timestamped (text : String) (words : List AlignedWord)

/-- `original_text` after result extraction (main.py 611-635): in
timestamps mode, non-empty word alignments go through the pause-aware
punctuator, an empty alignment falls back to the dict's text; plain mode
uses the extracted result text.  `none` on timeout (no extraction runs). -/
def originalTextOf : AsrOutcome → Option String
  | .timeout => none
  | .plain text => some text
  | .timestamped text words => some (if ¬ words.isEmpty then punctuate words else text)

/-- Messages sent by the background LLM-polish task
(`llm_polish_background`, main.py 655-673): one `polish_update` if
`polish_async` reports method `"llm"`, nothing otherwise (failures are
caught and logged). -/
def backgroundMessages (env : StopEnv) (originalText : String) : List Msg :=
  if env.llmPolisherPresent ∧ env.useLlmPolish then
    if (polishAsync originalText true env).2 = "llm" then
      [Msg.polishUpdate (env.runPlugins (polishAsync originalText true env).1)]
    else []
  else []

/-- All messages emitted while handling one `stop` (main.py 543-687), in
order: the empty-buffer early `final` (557, note: no `original_text`
field), the timeout `final` (601-606), or the transcription path — the
rule-polished `final` then any background `polish_update` when
`enable_polish`, the plain `final` otherwise. -/
def stopMessages (env : StopEnv) (chunks : List Chunk) (outcome : AsrOutcome) : List Msg :=
  if chunks.isEmpty then [Msg.final "" none "none"]
  else
    match outcome with
    | .timeout => [Msg.final "" (some "") "none"]
    | _ =>
      match originalTextOf outcome with
      | none => []
      | some originalText =>
        if env.enablePolish then
          Msg.final (env.runPlugins (env.scenePolish originalText)) (some originalText) "rules"
            :: backgroundMessages env originalText
        else
          [Msg.final (env.runPlugins originalText) (some originalText) "none"]

/-- C1: handling a `stop` sends exactly one `final` message — also with an
empty audio buffer and on transcription timeout. -/
theorem c1_exactly_one_final (env : StopEnv) (chunks : List Chunk) (outcome : AsrOutcome) :
    (stopMessages env chunks outcome).countP (fun m => isFinalMsg m) = 1 := by
  unfold stopMessages
  by_cases hb : chunks.isEmpty
  · rw [if_pos hb]
    rfl
  · rw [if_neg hb]
    rcases outcome with _ | text | ⟨text, words⟩
    · rfl
    all_goals {
      dsimp only [originalTextOf]
      by_cases hp : env.enablePolish
      · rw [if_pos hp]
        rw [List.countP_cons_of_pos _ _ (by rfl)]
        unfold backgroundMessages
        split_ifs <;> rfl
      · rw [if_neg hp]
        rfl
    }

/-- Does a `final` message carry the `original_text` field?
(non-`final` messages are unconstrained: `true`). -/
def finalHasOriginalText : Msg → Bool
  | .final _ originalText _ => originalText.isSome
  | _ => true

/-- A concrete environment for witnesses: polish disabled, no LLM, all
text-transforming collaborators the identity. -/
def sampleEnv : StopEnv :=
  { enablePolish := false, useLlmPolish := false, llmPolisherPresent := false,
    llmClientPresent := false, llmResult := none,
    scenePolish := id, runPlugins := id, rulesPolish := id }

/-- C2 (counterexample): the claim states every `final` carries
`original_text`; the `final` sent for a `stop` with an empty audio buffer
(main.py 557) does not — its JSON has only `type`, `text` and
`polish_method`. -/
theorem c2_counterexample :
    stopMessages sampleEnv [] (.plain "") = [Msg.final "" none "none"] ∧
    finalHasOriginalText (Msg.final "" none "none") = false :=
  ⟨rfl, rfl⟩

theorem backgroundMessages_not_final (env : StopEnv) (t : String) :
    ∀ m ∈ backgroundMessages env t, isFinalMsg m = false := by
  unfold backgroundMessages
  split_ifs with h1 h2 <;> intro m hm
  · rw [List.mem_singleton.mp hm]
    rfl
  · cases hm
  · cases hm

/-- C2 (amended): every `final` sent in response to a `stop` carries `text`
and `polish_method`; the timeout `final` and the transcription-path
`final`s also carry `original_text`, but the `final` sent when `stop`
arrives with an empty audio buffer has `text = ""`, `polish_method =
"none"` and omits the `original_text` field. -/
theorem c2_final_fields (env : StopEnv) (chunks : List Chunk) (outcome : AsrOutcome) :
    (chunks = [] → stopMessages env chunks outcome = [Msg.final "" none "none"]) ∧
    (chunks ≠ [] → outcome = .timeout →
      stopMessages env chunks outcome = [Msg.final "" (some "") "none"]) ∧
    (chunks ≠ [] → ∀ m ∈ stopMessages env chunks outcome, isFinalMsg m = true →
      ∃ text originalText pm, m = Msg.final text (some originalText) pm ∧
        (pm = "rules" ∨ pm = "none")) := by
  refine ⟨?_, ?_, ?_⟩
  · rintro rfl
    rfl
  · rintro hne rfl
    unfold stopMessages
    rw [if_neg (by simpa using hne)]
  · intro hne m hm hfin
    unfold stopMessages at hm
    rw [if_neg (by simpa using hne)] at hm
    rcases outcome with _ | text | ⟨text, words⟩
    · rw [List.mem_singleton.mp hm]
      exact ⟨"", "", "none", rfl, Or.inr rfl⟩
    all_goals {
      dsimp only [originalTextOf] at hm
      by_cases hp : env.enablePolish
      · rw [if_pos hp] at hm
        rcases List.mem_cons.mp hm with rfl | hbg
        · exact ⟨_, _, "rules", rfl, Or.inl rfl⟩
        · rw [backgroundMessages_not_final env _ m hbg] at hfin
          cases hfin
      · rw [if_neg hp] at hm
        rw [List.mem_singleton.mp hm]
        exact ⟨_, _, "none", rfl, Or.inr rfl⟩
    }

/-- C2 (witness): `c2_final_fields` applied to a non-empty buffer that
times out — the emitted `final` carries the `original_text` field. -/
theorem c2_final_fields_witness :
    stopMessages sampleEnv [Chunk.bytes [0, 0, 0, 0]] AsrOutcome.timeout =
      [Msg.final "" (some "") "none"] :=
  (c2_final_fields sampleEnv [Chunk.bytes [0, 0, 0, 0]] .timeout).2.1 (by simp) rfl

theorem polishAsync_noResult_not_llm (text : String) (useLlm : Bool) (env : StopEnv)
    (h : env.llmResult = none) : (polishAsync text useLlm env).2 ≠ "llm" := by
  unfold polishAsync
  rw [h]
  split_ifs <;> (dsimp only; decide)

/-- Shape of the background task's output: nothing, or exactly one
`polish_update` carrying the plugin-processed LLM text, the latter only
when `polish_async` reported method `"llm"`. -/
theorem backgroundMessages_shape (env : StopEnv) (t : String) :
    backgroundMessages env t = [] ∨
      ((polishAsync t true env).2 = "llm" ∧ env.llmPolisherPresent = true ∧
        env.useLlmPolish = true ∧
        backgroundMessages env t =
          [Msg.polishUpdate (env.runPlugins (polishAsync t true env).1)]) := by
  unfold backgroundMessages
  split_ifs with h1 h2
  · exact Or.inr ⟨h2, by simpa using h1.1, by simpa using h1.2, rfl⟩
  · exact Or.inl rfl
  · exact Or.inl rfl

/-- C3: with polishing enabled, handling a `stop` emits the (rule-polished)
`final` first, then at most one `polish_update`; the `polish_update`
exists only when the background LLM attempt returns method `"llm"` (and
then carries its plugin-processed output); when the LLM call raises,
nothing beyond the `final` is emitted. -/
theorem c3_update_after_final (env : StopEnv) (chunks : List Chunk) (outcome : AsrOutcome)
    (h : env.enablePolish = true) :
    (∃ text originalText pm rest,
      stopMessages env chunks outcome = Msg.final text originalText pm :: rest ∧
      (rest = [] ∨ ∃ u, rest = [Msg.polishUpdate u])) ∧
    (stopMessages env chunks outcome).countP (fun m => isUpdateMsg m) ≤ 1 ∧
    (∀ u, Msg.polishUpdate u ∈ stopMessages env chunks outcome →
      ∃ text, originalTextOf outcome = some text ∧
        (polishAsync text true env).2 = "llm" ∧
        u = env.runPlugins (polishAsync text true env).1) ∧
    (env.llmResult = none →
      ∀ m ∈ stopMessages env chunks outcome, isUpdateMsg m = false) := by
  by_cases hb : chunks.isEmpty
  · rw [show stopMessages env chunks outcome = [Msg.final "" none "none"] from by
      unfold stopMessages; rw [if_pos hb]]
    refine ⟨⟨"", none, "none", [], rfl, Or.inl rfl⟩, by decide, ?_, ?_⟩
    · intro u hu
      rcases List.mem_singleton.mp hu with ⟨⟩
    · intro _ m hm
      rw [List.mem_singleton.mp hm]
      rfl
  · have key : ∀ t : String,
        ((Msg.final (env.runPlugins (env.scenePolish t)) (some t) "rules"
            :: backgroundMessages env t).countP (fun m => isUpdateMsg m) ≤ 1) ∧
        (backgroundMessages env t = [] ∨
          ∃ u, backgroundMessages env t = [Msg.polishUpdate u]) ∧
        (∀ u, Msg.polishUpdate u ∈
            Msg.final (env.runPlugins (env.scenePolish t)) (some t) "rules"
              :: backgroundMessages env t →
          (polishAsync t true env).2 = "llm" ∧
            u = env.runPlugins (polishAsync t true env).1) ∧
        (env.llmResult = none → ∀ m ∈
            Msg.final (env.runPlugins (env.scenePolish t)) (some t) "rules"
              :: backgroundMessages env t, isUpdateMsg m = false) := by
      intro t
      rcases backgroundMessages_shape env t with hnil | ⟨hllm, -, -, hone⟩
      · rw [hnil]
        refine ⟨List.countP_le_length _, Or.inl rfl, ?_, ?_⟩
        · intro u hu
          rcases List.mem_singleton.mp hu with ⟨⟩
        · intro _ m hm
          rw [List.mem_singleton.mp hm]
          rfl
      · rw [hone]
        refine ⟨?_, Or.inr ⟨_, rfl⟩, ?_, ?_⟩
        · rw [List.countP_cons_of_neg _ _ (fun hc => Bool.false_ne_true hc)]
          exact List.countP_le_length _
        · intro u hu
          rcases List.mem_cons.mp hu with heq | hbg
          · cases heq
          · rcases List.mem_singleton.mp hbg with ⟨⟩
            exact ⟨hllm, rfl⟩
        · intro hnone m hm
          exact absurd hllm (polishAsync_noResult_not_llm _ _ _ hnone)
    rcases outcome with _ | text | ⟨text, words⟩
    · rw [show stopMessages env chunks .timeout = [Msg.final "" (some "") "none"] from by
        unfold stopMessages; rw [if_neg hb]]
      refine ⟨⟨"", some "", "none", [], rfl, Or.inl rfl⟩, by decide, ?_, ?_⟩
      · intro u hu
        rcases List.mem_singleton.mp hu with ⟨⟩
      · intro _ m hm
        rw [List.mem_singleton.mp hm]
        rfl
    · rw [show stopMessages env chunks (.plain text) =
          Msg.final (env.runPlugins (env.scenePolish text)) (some text) "rules"
            :: backgroundMessages env text from by
        unfold stopMessages
        rw [if_neg hb]
        dsimp only [originalTextOf]
        rw [if_pos h]]
      obtain ⟨k1, k2, k3, k4⟩ := key text
      refine ⟨?_, k1, fun u hu => ⟨text, rfl, (k3 u hu).1, (k3 u hu).2⟩, k4⟩
      rcases k2 with hnil | ⟨u, hone⟩
      · exact ⟨_, _, "rules", _, rfl, Or.inl hnil⟩
      · exact ⟨_, _, "rules", _, rfl, Or.inr ⟨u, hone⟩⟩
    · rw [show stopMessages env chunks (.timestamped text words) =
          Msg.final
              (env.runPlugins (env.scenePolish
                (if ¬ words.isEmpty then punctuate words else text)))
              (some (if ¬ words.isEmpty then punctuate words else text)) "rules"
            :: backgroundMessages env (if ¬ words.isEmpty then punctuate words else text) from by
        unfold stopMessages
        rw [if_neg hb]
        dsimp only [originalTextOf]
        rw [if_pos h]]
      obtain ⟨k1, k2, k3, k4⟩ := key (if ¬ words.isEmpty then punctuate words else text)
      refine ⟨?_, k1, fun u hu => ⟨_, rfl, (k3 u hu).1, (k3 u hu).2⟩, k4⟩
      rcases k2 with hnil | ⟨u, hone⟩
      · exact ⟨_, _, "rules", _, rfl, Or.inl hnil⟩
      · exact ⟨_, _, "rules", _, rfl, Or.inr ⟨u, hone⟩⟩

/-- A concrete environment with polishing and a successful LLM round trip,
for witnesses. -/
def sampleLlmEnv : StopEnv :=
  { enablePolish := true, useLlmPolish := true, llmPolisherPresent := true,
    llmClientPresent := true, llmResult := some "polished",
    scenePolish := id, runPlugins := id, rulesPolish := id }

/-- C3 (witness): `c3_update_after_final` applied to a concrete successful
session — the message list starts with the rule-polished `final` and has at
most one `polish_update`. -/
theorem c3_update_after_final_witness :
    (stopMessages sampleLlmEnv [Chunk.scaled [0]] (.plain "hello")).countP
      (fun m => isUpdateMsg m) ≤ 1 ∧
    (∃ text originalText pm rest,
      stopMessages sampleLlmEnv [Chunk.scaled [0]] (.plain "hello") =
        Msg.final text originalText pm :: rest ∧
      (rest = [] ∨ ∃ u, rest = [Msg.polishUpdate u])) :=
  ⟨(c3_update_after_final sampleLlmEnv [Chunk.scaled [0]] (.plain "hello") rfl).2.1,
    (c3_update_after_final sampleLlmEnv [Chunk.scaled [0]] (.plain "hello") rfl).1⟩

/-! ## The `enable_polish` flag (`handle_client`, main.py 510-511) -/

/-- A parsed JSON value (the subset relevant to the compared field). -/
inductive Json where
  | str (s : String)
  | bool (b : Bool)
  | num (q : ℚ)
  | null
  deriving DecidableEq

/-- `enable_polish = data.get("enable_polish") == "true"` (main.py 511):
Python `==` against the str `"true"`; the absent key (`None`) and values
of any other type or spelling compare unequal. -/
def enablePolishOf (v : Option Json) : Bool :=
  v = some (Json.str "true")

/-- C10: polishing is enabled iff the `start` message's `enable_polish`
field is exactly the JSON string `"true"`; the JSON boolean `true`, the
string `"True"` and an absent field all leave it disabled, and a disabled
session's `final` (on the transcription path and on the empty/timeout
paths alike) has `polish_method = "none"`. -/
theorem c10_enable_polish (v : Option Json) :
    (enablePolishOf v = true ↔ v = some (Json.str "true")) ∧
    enablePolishOf (some (Json.bool true)) = false ∧
    enablePolishOf (some (Json.str "True")) = false ∧
    enablePolishOf none = false ∧
    (∀ env chunks outcome text originalText pm,
      env.enablePolish = enablePolishOf v → enablePolishOf v = false →
      Msg.final text originalText pm ∈ stopMessages env chunks outcome →
      pm = "none") := by
  refine ⟨by simp [enablePolishOf], rfl, rfl, rfl, ?_⟩
  intro env chunks outcome text originalText pm henv hv hm
  have hp : env.enablePolish = false := henv.trans hv
  unfold stopMessages at hm
  by_cases hb : chunks.isEmpty
  · rw [if_pos hb] at hm
    rcases List.mem_singleton.mp hm with ⟨⟩
    rfl
  · rw [if_neg hb] at hm
    rcases outcome with _ | t | ⟨t, words⟩
    · rcases List.mem_singleton.mp hm with ⟨⟩
      rfl
    all_goals {
      dsimp only [originalTextOf] at hm
      rw [if_neg (fun hc => Bool.false_ne_true (hp ▸ hc))] at hm
      rcases List.mem_singleton.mp hm with ⟨⟩
      rfl
    }

/-- C10 (witness): `c10_enable_polish` applied at the JSON boolean `true` —
the flag stays off and the concrete session's `final` has method
`"none"`. -/
theorem c10_enable_polish_witness :
    enablePolishOf (some (Json.bool true)) = false ∧ "none" = "none" :=
  ⟨(c10_enable_polish (some (Json.bool true))).2.1,
    (c10_enable_polish (some (Json.bool true))).2.2.2.2 sampleEnv [Chunk.scaled [0]]
      (.plain "x") "x" (some "x") "none" rfl rfl (List.mem_singleton.mpr rfl)⟩

/-! ## The process-wide model lock (`model_lock`, main.py 36-37)

All model invocations in the session pipeline happen inside
`with model_lock:` blocks:

* the VAD partial transcription (`transcribe_with_lock`, main.py 298-300) —
  one model call under one acquisition;
* the plain final transcription (`transcribe_with_lock`, main.py 589-591) —
  one model call;
* the timestamps final transcription
  (`transcribe_with_timestamps_lock`, main.py 575-580) — `transcribe`
  followed by the ForcedAligner alignment (mlx_asr.py 218-274), i.e. two
  model calls under a single acquisition.

Each concurrent call site is a thread executing: acquire the lock, perform
its model call(s), release.  `with` releases on every exit path, normal or
exceptional, which the model reflects by letting `release` fire from any
remaining-call count.  The transition system below interleaves `n` such
threads over the single `threading.Lock`; mutual exclusion of the
in-model phases is the claim's invariant. -/

/-- Phase of one call-site thread. -/
inductive TPhase where
  /-- Has not yet acquired `model_lock`. -/
  | idle
  /-- Inside the `with model_lock:` block, `k` model invocations still to
  run (the invocation in progress included). -/
  | busy (k : Nat)
  /-- Left the `with` block (lock released). -/
  | done
  deriving DecidableEq

/-- Number of model calls a call site performs under one acquisition:
`model.transcribe` under `transcribe_with_lock`. -/
def plainTranscribeCalls : Nat := 1

/-- `model.transcribe_with_timestamps` under
`transcribe_with_timestamps_lock`: ASR then alignment. -/
def timestampsTranscribeCalls : Nat := 2

/-- Global configuration: each of the `n` threads' phase, plus the lock
owner (`none` = `model_lock` free). -/
structure LockConfig (n : Nat) where
  phase : Fin n → TPhase
  lock : Option (Fin n)

/-- Initial configuration: nobody has entered, lock free. -/
def LockConfig.initial (n : Nat) : LockConfig n :=
  { phase := fun _ => .idle, lock := none }

/-- Interleaving semantics.  `calls t` is the number of model invocations
thread `t`'s call site performs under the lock. -/
inductive LockStep {n : Nat} (calls : Fin n → Nat) : LockConfig n → LockConfig n → Prop where
  /-- `model_lock.acquire()` on entering `with`: only when the lock is
  free. -/
  | acquire (c : LockConfig n) (t : Fin n) :
      c.phase t = .idle → c.lock = none →
      LockStep calls c ⟨Function.update c.phase t (.busy (calls t)), some t⟩
  /-- One model invocation completes (inside the `with` block). -/
  | modelCall (c : LockConfig n) (t : Fin n) (k : Nat) :
      c.phase t = .busy (k + 1) →
      LockStep calls c ⟨Function.update c.phase t (.busy k), c.lock⟩
  /-- `model_lock.release()` on leaving `with` — on normal completion
  (`k = 0`) or unwinding an exception (`k > 0`); every exit path
  releases. -/
  | release (c : LockConfig n) (t : Fin n) (k : Nat) :
      c.phase t = .busy k →
      LockStep calls c ⟨Function.update c.phase t .done, none⟩

/-- Configurations reachable from the initial one. -/
def LockReachable {n : Nat} (calls : Fin n → Nat) (c : LockConfig n) : Prop :=
  Relation.ReflTransGen (LockStep calls) (LockConfig.initial n) c

/-- Thread `t` is currently inside the model (between acquire and
release). -/
def TPhase.isBusy : TPhase → Bool
  | .busy _ => true
  | _ => false

theorem lockInv_step {n : Nat} {calls : Fin n → Nat} {c c' : LockConfig n}
    (hstep : LockStep calls c c')
    (hinv : ∀ t, (c.phase t).isBusy = true → c.lock = some t) :
    ∀ t, (c'.phase t).isBusy = true → c'.lock = some t := by
  rcases hstep with ⟨t, hph, hlk⟩ | ⟨t, k, hph⟩ | ⟨t, k, hph⟩ <;> intro u hu
  · by_cases he : u = t
    · subst he
      rfl
    · rw [show (⟨Function.update c.phase t (.busy (calls t)), some t⟩ :
          LockConfig n).phase u = c.phase u from Function.update_noteq he _ _] at hu
      have hcontra := hinv u hu
      rw [hlk] at hcontra
      exact Option.noConfusion hcontra
  · by_cases he : u = t
    · subst he
      exact hinv u (by rw [hph]; rfl)
    · rw [show (⟨Function.update c.phase t (.busy k), c.lock⟩ :
          LockConfig n).phase u = c.phase u from Function.update_noteq he _ _] at hu
      exact hinv u hu
  · by_cases he : u = t
    · subst he
      rw [show (⟨Function.update c.phase u TPhase.done, none⟩ :
          LockConfig n).phase u = TPhase.done from Function.update_same _ _ _] at hu
      cases hu
  
    · rw [show (⟨Function.update c.phase t TPhase.done, none⟩ :
          LockConfig n).phase u = c.phase u from Function.update_noteq he _ _] at hu
      have h1 := hinv u hu
      have h2 := hinv t (by rw [hph]; rfl)
      rw [h2] at h1
      exact absurd (Option.some.inj h1) fun hc => he hc.symm

theorem lockInv_reachable {n : Nat} {calls : Fin n → Nat} {c : LockConfig n}
    (hr : LockReachable calls c) :
    ∀ t, (c.phase t).isBusy = true → c.lock = some t := by
  induction hr with
  | refl => intro t ht; cases ht
  | tail hsteps hstep ih => exact lockInv_step hstep ih

/-- C4: in every reachable interleaving of lock-guarded call sites, at most
one thread is inside a model invocation at any instant (so VAD partials,
final transcriptions and timestamp alignment are mutually serialized
across all sessions), and whoever is inside holds `model_lock` — which is
released again on every exit path (the `release` step fires from any
remaining-call count, covering exceptional exits). -/
theorem c4_model_lock_mutual_exclusion {n : Nat} (calls : Fin n → Nat)
    (c : LockConfig n) (hr : LockReachable calls c) :
    (∀ t₁ t₂, (c.phase t₁).isBusy = true → (c.phase t₂).isBusy = true → t₁ = t₂) ∧
    (∀ t, (c.phase t).isBusy = true → c.lock = some t) := by
  have hinv := lockInv_reachable hr
  refine ⟨?_, hinv⟩
  intro t₁ t₂ h₁ h₂
  have e₁ := hinv t₁ h₁
  have e₂ := hinv t₂ h₂
  rw [e₁] at e₂
  exact Option.some.inj e₂

/-- A two-thread demo configuration: thread 0 (a plain transcription) has
acquired the lock; thread 1 (a timestamps transcription) is idle. -/
def lockDemoConfig : LockConfig 2 :=
  ⟨Function.update (LockConfig.initial 2).phase 0
    (.busy ((fun t : Fin 2 => if t = 0 then plainTranscribeCalls
      else timestampsTranscribeCalls) 0)), some 0⟩

theorem lockDemoConfig_reachable :
    LockReachable (fun t : Fin 2 => if t = 0 then plainTranscribeCalls
      else timestampsTranscribeCalls) lockDemoConfig :=
  Relation.ReflTransGen.tail Relation.ReflTransGen.refl
    (LockStep.acquire (LockConfig.initial 2) 0 rfl rfl)

/-- C4 (witness): `c4_model_lock_mutual_exclusion` applied to the concrete
reachable configuration in which thread 0 is inside its model call — it
must hold the lock. -/
theorem c4_model_lock_mutual_exclusion_witness : lockDemoConfig.lock = some 0 :=
  (c4_model_lock_mutual_exclusion _ lockDemoConfig lockDemoConfig_reachable).2 0 (by decide)

/-! ## LLM polish prompt selection (`LLMPolisher._get_prompt`,
llm_polisher.py 268-303; tables at llm_polisher.py 14-242)

Python dicts preserve insertion order; the tables are association lists in
source order.  Key lookup (`bundle_id in APP_SCENE_MAPPING`,
`DEFAULT_POLISH_PROMPTS.get`) is order-independent since keys are unique;
the `APP_NAME_SCENE_MAPPING` loop tests patterns in source order.
`str.lower()` is modelled with `Char.toLower` (ASCII); all table keys are
ASCII or CJK, on which the two agree. -/

/-- DEFAULT_POLISH_PROMPTS["general"] (llm_polisher.py). -/
def prompt_general : String :=
  "修正语音识别错误。只输出修正后的文本，不要解释。\n\n示例1:\n输入: 他门在那里\n输出: 他们在那里\n\n示例2:\n输入: 我想要在试一下\n输出: 我想要再试一下\n\n示例3:\n输入: 嗯嗯那个就是说我觉得\n输出: 我觉得\n\n现在修正以下文本："

/-- DEFAULT_POLISH_PROMPTS["coding"] (llm_polisher.py). -/
def prompt_coding : String :=
  "修正语音识别错误，识别编程术语。只输出修正后的文本，不要解释。\n\n术语对照：派森→Python、克劳德→Claude、阿派→API、吉特→Git\n\n示例1:\n输入: 我用派森写代码\n输出: 我用Python写代码\n\n示例2:\n输入: 调用克劳德的阿派\n输出: 调用Claude的API\n\n示例3:\n输入: 用吉特提交代码\n输出: 用Git提交代码\n\n现在修正以下文本："

/-- DEFAULT_POLISH_PROMPTS["writing"] (llm_polisher.py). -/
def prompt_writing : String :=
  "修正语音识别错误，优化标点。只输出修正后的文本，不要解释。\n\n示例1:\n输入: 他门去了那里然后又回来了\n输出: 他们去了那里，然后又回来了。\n\n示例2:\n输入: 这个东西的确很好\n输出: 这个东西确实很好。\n\n现在修正以下文本："

/-- DEFAULT_POLISH_PROMPTS["social"] (llm_polisher.py). -/
def prompt_social : String :=
  "修正语音识别错误。只输出修正后的文本，不要解释，不要改变原意。\n\n示例1:\n输入: 他门好厉害\n输出: 他们好厉害\n\n示例2:\n输入: 在见啊\n输出: 再见啊\n\n现在修正以下文本："

/-- DEFAULT_POLISH_PROMPTS["medical"] (llm_polisher.py). -/
def prompt_medical : String :=
  "你是医疗领域的语音识别纠错助手。请修正以下ASR转录文本：\n\n## 核心任务\n修正语音识别错误，正确识别医学专业术语。\n\n## 医学术语纠错（高优先级）\n1. **检查项目**：西踢/希提→CT、核磁→MRI、心电→ECG/EKG、彩超→B超、批踢→PT、欧踢→OT\n2. **药品名称**：阿莫西林、头孢、布洛芬、奥美拉唑、二甲双胍、阿司匹林、氯雷他定\n3. **疾病名称**：糖尿病、高血压、冠心病、肺炎、胃炎、肝硬化、甲亢、乙肝\n4. **医学缩写**：ICU、CCU、BP（血压）、HR（心率）、SpO2（血氧）、BMI、HbA1c\n5. **解剖学**：股骨、胫骨、腓骨、颈椎、腰椎、胸椎、主动脉、冠状动脉\n6. **中医术语**：气血、阴阳、经络、穴位、脉象、舌苔、肾虚、脾虚\n\n## 通用ASR错误\n- 同音字、近音词、语气词冗余、重复词\n\n## 保留规则\n- 药品剂量和用法保持原样\n- 检查数值不修改\n- 病历描述保持完整\n\n直接输出修正后的文本："

/-- DEFAULT_POLISH_PROMPTS["legal"] (llm_polisher.py). -/
def prompt_legal : String :=
  "你是法律领域的语音识别纠错助手。请修正以下ASR转录文本：\n\n## 核心任务\n修正语音识别错误，正确识别法律专业术语。\n\n## 法律术语纠错（高优先级）\n1. **诉讼术语**：原告、被告、上诉人、被上诉人、第三人、代理人、辩护人\n2. **法律文书**：起诉状、答辩状、判决书、裁定书、调解书、执行令、传票\n3. **法条引用**：民法典、刑法、民事诉讼法、刑事诉讼法、公司法、合同法\n4. **法院名称**：最高人民法院、高级人民法院、中级人民法院、基层人民法院\n5. **合同条款**：甲方、乙方、违约金、定金、订金、保证金、履约保证\n6. **法律概念**：管辖权、诉讼时效、举证责任、不可抗力、善意取得、连带责任\n\n## 通用ASR错误\n- 同音字（如：权利/权力、法治/法制）、近音词、语气词冗余\n\n## 保留规则\n- 法条编号保持原样（如：第XX条第X款）\n- 当事人名称不修改\n- 金额数字保持完整\n\n直接输出修正后的文本："

/-- DEFAULT_POLISH_PROMPTS["technical"] (llm_polisher.py). -/
def prompt_technical : String :=
  "你是技术标准领域的语音识别纠错助手。请修正以下ASR转录文本：\n\n## 核心任务\n修正语音识别错误，正确识别技术标准和硬件术语。\n\n## 技术术语纠错（高优先级）\n1. **标准组织**：ISO、IEEE、ANSI、IEC、GB（国标）、ASTM、UL、CE\n2. **网络协议**：TCP/IP、HTTP/HTTPS、FTP、SSH、DNS、DHCP、UDP、SMTP\n3. **硬件组件**：CPU、GPU、RAM、SSD、HDD、主板、显卡、电源、散热器\n4. **接口标准**：USB、HDMI、DisplayPort、Thunderbolt、PCIe、SATA、NVMe\n5. **网络设备**：路由器、交换机、防火墙、网关、调制解调器、AP\n6. **技术规格**：带宽、延迟、吞吐量、频率、功率、电压、电流\n\n## 通用ASR错误\n- 同音字、近音词、语气词冗余、重复词\n\n## 保留规则\n- 型号规格保持原样\n- 数值单位不修改（如：100Mbps、5GHz）\n- 版本号保持完整\n\n直接输出修正后的文本："

/-- DEFAULT_POLISH_PROMPTS["finance"] (llm_polisher.py). -/
def prompt_finance : String :=
  "你是金融领域的语音识别纠错助手。请修正以下ASR转录文本：\n\n## 核心任务\n修正语音识别错误，正确识别金融专业术语。\n\n## 金融术语纠错（高优先级）\n1. **投资工具**：股票、债券、基金、期货、期权、ETF、理财产品、信托\n2. **财务报表**：资产负债表、利润表、现金流量表、所有者权益表\n3. **金融指标**：ROI（投资回报率）、ROE（净资产收益率）、PE（市盈率）、PB（市净率）、EPS（每股收益）\n4. **交易术语**：多头、空头、做多、做空、平仓、建仓、止损、止盈、杠杆\n5. **银行业务**：存款、贷款、利率、汇率、外汇、信用证、承兑汇票\n6. **监管机构**：证监会、银保监会、央行、交易所、结算中心\n\n## 通用ASR错误\n- 同音字（如：利率/利绿、股市/骨石）、近音词、语气词冗余\n\n## 保留规则\n- 金额数字保持原样\n- 股票代码不修改\n- 日期时间保持完整\n\n直接输出修正后的文本："

/-- DEFAULT_POLISH_PROMPTS["engineering"] (llm_polisher.py). -/
def prompt_engineering : String :=
  "你是工程领域的语音识别纠错助手。请修正以下ASR转录文本：\n\n## 核心任务\n修正语音识别错误，正确识别工程专业术语。\n\n## 工程术语纠错（高优先级）\n1. **材料名称**：不锈钢、碳钢、铝合金、钛合金、铜、塑料、复合材料、玻璃钢\n2. **加工工艺**：车削、铣削、钻孔、攻丝、焊接、铸造、锻造、冲压、注塑\n3. **设计软件**：CAD、CAM、CAE、SolidWorks、AutoCAD、CATIA、Pro/E、UG/NX\n4. **工程标准**：公差、配合、表面粗糙度、硬度、强度、刚度、韧性\n5. **测量工具**：卡尺、千分尺、百分表、三坐标、投影仪、粗糙度仪\n6. **机械元件**：轴承、齿轮、皮带、链条、联轴器、弹簧、密封圈、螺栓\n\n## 通用ASR错误\n- 同音字、近音词、语气词冗余、重复词\n\n## 保留规则\n- 尺寸规格保持原样（如：M8×1.25、φ50）\n- 公差标注不修改\n- 图号编号保持完整\n\n直接输出修正后的文本："

def DEFAULT_POLISH_PROMPTS : List (String × String) := [
  ("general", prompt_general),
  ("coding", prompt_coding),
  ("writing", prompt_writing),
  ("social", prompt_social),
  ("medical", prompt_medical),
  ("legal", prompt_legal),
  ("technical", prompt_technical),
  ("finance", prompt_finance),
  ("engineering", prompt_engineering)]

def APP_SCENE_MAPPING : List (String × String) := [
  ("com.apple.mail", "formal"),
  ("com.readdle.smartemail", "formal"),
  ("com.microsoft.Outlook", "formal"),
  ("com.sparkmailapp.Spark", "formal"),
  ("com.tencent.xinWeChat", "social"),
  ("com.apple.MobileSMS", "social"),
  ("com.slack.Slack", "social"),
  ("com.discord.Discord", "social"),
  ("com.telegram.desktop", "social"),
  ("com.whatsapp.WhatsApp", "social"),
  ("com.microsoft.VSCode", "coding"),
  ("com.apple.dt.Xcode", "coding"),
  ("com.jetbrains.intellij", "coding"),
  ("com.sublimehq.Sublime-Text", "coding"),
  ("com.googlecode.iterm2", "coding"),
  ("com.apple.Terminal", "coding"),
  ("com.apple.iWork.Pages", "writing"),
  ("com.microsoft.Word", "writing"),
  ("notion.id", "writing"),
  ("com.google.Chrome", "writing")]

def APP_NAME_SCENE_MAPPING : List (String × String) := [
  ("mail", "formal"),
  ("outlook", "formal"),
  ("spark", "formal"),
  ("微信", "social"),
  ("wechat", "social"),
  ("slack", "social"),
  ("discord", "social"),
  ("telegram", "social"),
  ("whatsapp", "social"),
  ("messages", "social"),
  ("信息", "social"),
  ("vscode", "coding"),
  ("visual studio code", "coding"),
  ("xcode", "coding"),
  ("terminal", "coding"),
  ("终端", "coding"),
  ("iterm", "coding"),
  ("pages", "writing"),
  ("word", "writing"),
  ("notion", "writing")]

/-- `active_app` — dict fields with `.get(..., "")` defaults. -/
structure ActiveApp where
  bundleId : String
  name : String
  deriving DecidableEq

/-- A scene dict, restricted to the fields `_get_prompt` reads.  `Option`
models Python falsiness: `customPrompt = none` covers an absent key, `None`
or `""` (`if custom_prompt:`), and `activeApp = none` covers an absent key
or empty dict (`if active_app:`). -/
structure Scene where
  customPrompt : Option String
  activeApp : Option ActiveApp
  sceneType : Option String
  deriving DecidableEq

/-- `DEFAULT_POLISH_PROMPTS.get(scene_type, DEFAULT_POLISH_PROMPTS["general"])`. -/
def promptsGet (sceneType : String) : String :=
  (DEFAULT_POLISH_PROMPTS.lookup sceneType).getD prompt_general

/-- Is `pat` a contiguous sublist of the second list?  (Bool analogue of
`List.IsInfix`.) -/
def isInfixList (pat : List Char) : List Char → Bool
  | [] => pat.isEmpty
  | c :: rest => pat.isPrefixOf (c :: rest) || isInfixList pat rest

/-- `name_pattern in app_name` (Python substring test). -/
def containsSubstr (pat s : String) : Bool :=
  isInfixList pat.toList s.toList

/-- `str.lower()` modelled character-wise with `Char.toLower` (ASCII);
all table patterns are ASCII or CJK, where the two agree. -/
def pyLower (s : String) : String :=
  String.mk (s.data.map Char.toLower)

/-- `LLMPolisher._get_prompt(scene)` (llm_polisher.py 268-303). -/
def getPrompt (scene : Scene) : String :=
  match scene.customPrompt with
  | some p => p
  | none =>
    match scene.activeApp with
    | some app =>
      match APP_SCENE_MAPPING.lookup app.bundleId with
      | some sceneType => promptsGet sceneType
      | none =>
        match APP_NAME_SCENE_MAPPING.findSome? (fun pair =>
            if containsSubstr pair.1 (pyLower app.name) then some (promptsGet pair.2)
            else none) with
        | some prompt => prompt
        | none => promptsGet (scene.sceneType.getD "general")
    | none => promptsGet (scene.sceneType.getD "general")

/-- C9: prompt-selection precedence — a custom prompt always wins; with an
active-application hint, the bundle-id table is consulted first, then the
first substring match of a name pattern against the lowercased application
name; otherwise the scene type's default prompt is used, falling back to
the `"general"` default when the type is absent or unknown. -/
theorem c9_prompt_precedence (scene : Scene) :
    (∀ p, scene.customPrompt = some p → getPrompt scene = p) ∧
    (∀ app, scene.customPrompt = none → scene.activeApp = some app →
      (∀ sceneType, APP_SCENE_MAPPING.lookup app.bundleId = some sceneType →
        getPrompt scene = promptsGet sceneType) ∧
      (APP_SCENE_MAPPING.lookup app.bundleId = none →
        ∀ prompt,
          APP_NAME_SCENE_MAPPING.findSome? (fun pair =>
            if containsSubstr pair.1 (pyLower app.name) then some (promptsGet pair.2)
            else none) = some prompt →
          getPrompt scene = prompt) ∧
      (APP_SCENE_MAPPING.lookup app.bundleId = none →
        APP_NAME_SCENE_MAPPING.findSome? (fun pair =>
          if containsSubstr pair.1 (pyLower app.name) then some (promptsGet pair.2)
          else none) = none →
        getPrompt scene = promptsGet (scene.sceneType.getD "general"))) ∧
    (scene.customPrompt = none → scene.activeApp = none →
      getPrompt scene = promptsGet (scene.sceneType.getD "general")) ∧
    (∀ sceneType, DEFAULT_POLISH_PROMPTS.lookup sceneType = none →
      promptsGet sceneType = prompt_general) := by
  refine ⟨?_, ?_, ?_, ?_⟩
  · intro p hp
    unfold getPrompt
    rw [hp]
  · intro app hc ha
    unfold getPrompt
    rw [hc, ha]
    dsimp only
    refine ⟨?_, ?_, ?_⟩
    · intro sceneType hst
      rw [hst]
    · intro hnone prompt hfind
      rw [hnone, hfind]
    · intro hnone hfind
      rw [hnone, hfind]
  · intro hc ha
    unfold getPrompt
    rw [hc, ha]
  · intro sceneType hnone
    unfold promptsGet
    rw [hnone]
    rfl

/-- C9 (witness): `c9_prompt_precedence` applied to concrete scenes — a
custom prompt wins; the VS Code bundle id maps to the coding prompt; the
app name "iTerm2" substring-matches `"iterm"` to the coding prompt; an
unknown scene type falls back to the general prompt. -/
theorem c9_prompt_precedence_witness :
    getPrompt ⟨some "fix it", some ⟨"com.microsoft.VSCode", "Code"⟩, some "legal"⟩ = "fix it" ∧
    getPrompt ⟨none, some ⟨"com.microsoft.VSCode", "Code"⟩, none⟩ = prompt_coding ∧
    getPrompt ⟨none, some ⟨"org.example.xyz", "iTerm2"⟩, some "legal"⟩ = prompt_coding ∧
    getPrompt ⟨none, none, some "unknown-scene"⟩ = prompt_general := by
  refine ⟨?_, ?_, ?_, ?_⟩
  · exact (c9_prompt_precedence _).1 "fix it" rfl
  · have h := ((c9_prompt_precedence
      ⟨none, some ⟨"com.microsoft.VSCode", "Code"⟩, none⟩).2.1
      ⟨"com.microsoft.VSCode", "Code"⟩ rfl rfl).1 "coding" (by rfl)
    rw [h]
    rfl
  · have h := ((c9_prompt_precedence
      ⟨none, some ⟨"org.example.xyz", "iTerm2"⟩, some "legal"⟩).2.1
      ⟨"org.example.xyz", "iTerm2"⟩ rfl rfl).2.1 (by rfl) (promptsGet "coding") (by rfl)
    rw [h]
    rfl
  · have h := (c9_prompt_precedence ⟨none, none, some "unknown-scene"⟩).2.2.1 rfl rfl
    rw [h]
    exact (c9_prompt_precedence ⟨none, none, some "unknown-scene"⟩).2.2.2 "unknown-scene" (by rfl)

end VoiceFlow
